import Mathlib

/-!
Verification development for the greedy move-selection engine of the
Chess-Trainer repository.

The embedding covers, faithfully and in source order:
  * `backend/models/greedy/greedy_ai.py`        — `GreedyAI.play`, `GreedyAI.get_action_score`
  * `backend/models/greedy/greedy_exploration.py` — `single_simulation`, `get_score`,
    the candidate-selection part of `GreedyExplorationAI.play`
  * `backend/src/chess/simulation.py`           — `Simulation.__init__`, `checkpoint`,
    `rollback`, `reset`, `run`
  * `backend/src/chess/game.py`                 — `Game.__init__`, `_load_fen`, `fen`,
    `move`, `is_game_over`, `play` (board set-up path)

The chess rules engine itself (the `python-chess` library: legal-move
generation, board mutation via `push`/`pop`, attack and terminal queries,
FEN serialisation) is an external collaborator of the repository; it is
modelled as an abstract oracle `Rules B` over an opaque board type `B`.
Every query field of `Rules` corresponds to exactly one `python-chess`
API call made by the repository code.  Concrete `Rules` instances over
`B := Nat` are supplied for witnesses and counterexamples.

Scores are rationals (`ℚ`); the Python code uses floats, but every
constant and division in the evaluated expressions is exact in `ℚ`,
which is the standard idealisation for these claims.
-/

/-- Colour of a side, `chess.WHITE` / `chess.BLACK`. -/
inductive Color where
  | white
  | black
deriving DecidableEq, Repr

/-- Python `not color`. -/
def Color.other : Color → Color
  | .white => .black
  | .black => .white

/-- Piece kinds of `python-chess`. -/
inductive PieceType where
  | pawn
  | knight
  | bishop
  | rook
  | queen
  | king
deriving DecidableEq, Repr

/-- A piece as returned by `board.piece_at`. -/
structure Piece where
  pieceType : PieceType
  color : Color
deriving DecidableEq, Repr

/-- A move: origin square, destination square, optional promotion
(`chess.Move`).  Squares use the `python-chess` numbering `0 = a1 … 63 = h8`. -/
structure Move where
  fromSquare : Nat
  toSquare : Nat
  promotion : Option PieceType
deriving DecidableEq, Repr

/-- `chess.square_rank`. -/
def squareRank (sq : Nat) : Nat := sq / 8

/-- `chess.square_file`. -/
def squareFile (sq : Nat) : Nat := sq % 8

/-- Membership in `chess.SquareSet(chess.BB_CENTER)`: d4, e4, d5, e5. -/
def isCenter (sq : Nat) : Bool := sq == 27 || sq == 28 || sq == 35 || sq == 36

/-- Membership in `Game.BB_EDGE = BB_RANK_1 | BB_RANK_8 | BB_FILE_A | BB_FILE_H`. -/
def isEdge (sq : Nat) : Bool :=
  squareRank sq == 0 || squareRank sq == 7 || squareFile sq == 0 || squareFile sq == 7

/-- Absolute difference of two naturals, as Python `abs(a - b)` on ints. -/
def natDist (a b : Nat) : Nat := ((a : Int) - (b : Int)).natAbs

/-- Coordinate (Manhattan) distance used by the bishop/rook "long move" bonus:
`abs(x_from - x_to) + abs(y_from - y_to)` where `Game.get_coords` returns
`(square % 8, square // 8)`. -/
def coordDist (a b : Nat) : ℚ :=
  (natDist (squareFile a) (squareFile b) : ℚ) + (natDist (squareRank a) (squareRank b) : ℚ)

/-- `Game.PIECE_VALUES` (game.py lines 12–19). -/
def pieceValue : PieceType → ℚ
  | .pawn => 1
  | .knight => 3
  | .bishop => 3
  | .rook => 5
  | .queen => 9
  | .king => 10

/-- The secondary weight table local to `GreedyExplorationAI.get_score`. -/
def pieceValue2 : PieceType → ℚ
  | .pawn => 15
  | .knight => 32
  | .bishop => 33
  | .rook => 50
  | .queen => 90
  | .king => 0

/-- `initial_ranks = {chess.WHITE: 1, chess.BLACK: 6}` (greedy_ai.py line 71). -/
def initialRank : Color → Nat
  | .white => 1
  | .black => 6

/-- Squares attacked by a pawn of colour `c` standing on `sq`
(`chess.BB_PAWN_ATTACKS[color][square]`, a pure geometry table of the
external library). -/
def pawnAttackSquares (c : Color) (sq : Nat) : List Nat :=
  let f := squareFile sq
  let r := squareRank sq
  match c with
  | .white => (if 0 < f ∧ r < 7 then [sq + 7] else []) ++ (if f < 7 ∧ r < 7 then [sq + 9] else [])
  | .black => (if 0 < f ∧ 0 < r then [sq - 9] else []) ++ (if f < 7 ∧ 0 < r then [sq - 7] else [])

/-- The external Rules Engine (`python-chess`) as an abstract oracle over an
opaque board-state type `B`.  Each field is one library query used by the
repository:

* `pieceAt b sq`            — `board.piece_at(sq)` / `Game.get_piece`
* `legalMoves b`            — `list(board.legal_moves)` in enumeration order
* `push b m` / `pop b`      — `board.push(m)` / `board.pop()`
* `turn b`                  — `board.turn`
* `isCheck/…/isFivefoldRepetition` — the terminal/check queries
* `kingSquare b c`          — `board.king(c)` (`none` when the king is absent)
* `attackersCount b c sq`   — `len(board.attackers(c, sq))`
* `attacksCount b sq`       — `len(list(board.attacks(sq)))`
* `pieceCount b pt c`       — `len(board.pieces(pt, c))`
* `hasKingside/hasQueenside` — `board.has_kingside/queenside_castling_rights`
* `fullmoveNumber b`        — `board.fullmove_number`
* `fen b` / `loadFen s`     — `board.fen()` / `chess.Board(fen)`
* `initialBoard`            — `chess.Board()` (standard start position)
-/
structure Rules (B : Type) where
  pieceAt : B → Nat → Option Piece
  legalMoves : B → List Move
  push : B → Move → B
  pop : B → B
  turn : B → Color
  isCheck : B → Bool
  isCheckmate : B → Bool
  isStalemate : B → Bool
  isInsufficientMaterial : B → Bool
  isSeventyfiveMoves : B → Bool
  isFivefoldRepetition : B → Bool
  kingSquare : B → Color → Option Nat
  attackersCount : B → Color → Nat → Nat
  attacksCount : B → Nat → Nat
  pieceCount : B → PieceType → Color → Nat
  hasKingside : B → Color → Bool
  hasQueenside : B → Color → Bool
  fullmoveNumber : B → Nat
  fen : B → String
  loadFen : String → B
  initialBoard : B

/-- The two-entry recent-move memory of `GreedyAI`
(`last_move_piece`, `last_last_move_piece`). -/
structure GreedyMem where
  lastMovePiece : Option PieceType
  lastLastMovePiece : Option PieceType
deriving DecidableEq, Repr

section Scoring

variable {B : Type}

/-- Capture evaluation (greedy_ai.py lines 59–61):
`if captured_piece: value += PIECE_VALUES[captured_piece.piece_type] * 9`. -/
def captureTerm (R : Rules B) (b : B) (m : Move) : ℚ :=
  match R.pieceAt b m.toSquare with
  | some cp => pieceValue cp.pieceType * 9
  | none => 0

/-- Repetition penalties (lines 63–68): −20 if the moved piece type equals
`last_move_piece`, −10 if it equals `last_last_move_piece`. -/
def repetitionTerm (mem : GreedyMem) (pt : PieceType) : ℚ :=
  (if mem.lastMovePiece = some pt then -20 else 0)
  + (if mem.lastLastMovePiece = some pt then -10 else 0)

/-- Development bonus (lines 70–73): +5 for leaving the colour's initial rank. -/
def developmentTerm (m : Move) (c : Color) : ℚ :=
  if squareRank m.fromSquare = initialRank c then 5 else 0

/-- Castling bonus (lines 76–78): +15 for a king move of file distance 2. -/
def castlingTerm (m : Move) (pt : PieceType) : ℚ :=
  if pt = PieceType.king ∧ natDist (squareFile m.fromSquare) (squareFile m.toSquare) = 2
  then 15 else 0

/-- Centre control (lines 80–86): +5 for arriving in the centre, −5 for
leaving it without arriving in it. -/
def centerTerm (m : Move) : ℚ :=
  (if isCenter m.toSquare then 5 else 0)
  + (if isCenter m.fromSquare ∧ ¬ isCenter m.toSquare then -5 else 0)

/-- Edge penalty (lines 88–90): −5 if either endpoint is an edge square. -/
def edgeTerm (m : Move) : ℚ :=
  if isEdge m.toSquare ∨ isEdge m.fromSquare then -5 else 0

/-- Rook/castling interaction (lines 125–135).  The source checks the
KINGSIDE right for the a-file rook and the QUEENSIDE right for the h-file
rook (a1 = 0, h1 = 7, a8 = 56, h8 = 63); the embedding mirrors that pairing
verbatim. -/
def rookCastleTerm (R : Rules B) (b : B) (m : Move) (c : Color) : ℚ :=
  match c with
  | .white =>
      (if m.fromSquare = 0 ∧ R.hasKingside b .white then (-20 : ℚ) else 0)
      + (if m.fromSquare = 7 ∧ R.hasQueenside b .white then (-20 : ℚ) else 0)
  | .black =>
      (if m.fromSquare = 56 ∧ R.hasKingside b .black then (-20 : ℚ) else 0)
      + (if m.fromSquare = 63 ∧ R.hasQueenside b .black then (-20 : ℚ) else 0)

/-- Count of own-coloured pieces on the colour's back rank (lines 144–146). -/
def backRankOwnCount (R : Rules B) (b : B) (c : Color) : Nat :=
  ((List.range 8).map (fun i => match c with | .white => i | .black => 56 + i)).countP
    (fun sq => (R.pieceAt b sq).any (fun p => p.color == c))

/-- Piece-specific adjustments (greedy_ai.py lines 92–149), one branch per
piece type, in source order. -/
def pieceTypeTerm (R : Rules B) (b : B) (m : Move) (pt : PieceType) (c : Color) : ℚ :=
  match pt with
  | .pawn =>
      (1 + (if squareRank m.toSquare = 7 ∨ squareRank m.toSquare = 0 then (5 : ℚ) else 0))
      + (if 6 ≤ squareRank m.toSquare then 3 else 0)
      + (if natDist (squareRank m.fromSquare) (squareRank m.toSquare) = 2 then 1 else 0)
      + (if R.pieceCount b .pawn c < 4 ∧ R.pieceCount b .queen c = 0 then 6 else 0)
  | .knight =>
      3 + (if isEdge m.toSquare then (-6 : ℚ) else 0) + (if isEdge m.fromSquare then 3 else 0)
  | .bishop =>
      (3 + (R.attacksCount b m.toSquare : ℚ) / 3)
      + coordDist m.fromSquare m.toSquare / (9 / 2)  -- the literal 4.5
      + (if squareRank m.toSquare = 0 ∧
            (squareFile m.toSquare = 2 ∨ squareFile m.toSquare = 3 ∨
             squareFile m.toSquare = 4 ∨ squareFile m.toSquare = 5)
         then (-10 : ℚ) else 0)
  | .rook =>
      1 + coordDist m.fromSquare m.toSquare / (7 / 2) + rookCastleTerm R b m c  -- 3.5
  | .queen =>
      (if R.fullmoveNumber b < 15 then (-20 : ℚ) else 0) - (backRankOwnCount R b c : ℚ) * 3
  | .king => -50

/-- Promotion bonus (lines 151–153). -/
def promotionTerm (m : Move) : ℚ :=
  match m.promotion with
  | some pp => (pieceValue pp - 1) * 3
  | none => 0

/-- Tactical awareness (lines 155–168).  Note the source computes both
`attackers` and `attackers_from` as the respective attacker count PLUS ONE,
so the final guard `attackers_from > 0` always holds. -/
def tacticalTerm (R : Rules B) (b : B) (m : Move) (pt : PieceType) (c : Color) : ℚ :=
  let attackers := R.attackersCount b (Color.other c) m.toSquare + 1
  let defenders := R.attackersCount b c m.toSquare
  let attackersFrom := R.attackersCount b (Color.other c) m.fromSquare + 1
  (if 1 < attackers then -(pieceValue pt * 8) else 0)
  + (if defenders < attackers then -(pieceValue pt * 5) else 0)
  + (if 0 < attackersFrom then pieceValue pt * 5 else 0)

/-- Sum of all pre-push heuristic contributions of
`GreedyAI.get_action_score` (lines 38–168); every `value +=` of that span
is one summand, in source order (none of them reads `value`). -/
def preMoveScore (R : Rules B) (mem : GreedyMem) (b : B) (m : Move) (fp : Piece) : ℚ :=
  pieceValue fp.pieceType
  + captureTerm R b m
  + repetitionTerm mem fp.pieceType
  + developmentTerm m fp.color
  + castlingTerm m fp.pieceType
  + centerTerm m
  + edgeTerm m
  + pieceTypeTerm R b m fp.pieceType fp.color
  + promotionTerm m
  + tacticalTerm R b m fp.pieceType fp.color

/-- Number of legal moves whose origin is the (optional) enemy king square:
`len([m for m in board.legal_moves if m.from_square == enemy_king_square])`.
When `board.king` returned `None` no move matches. -/
def kingMovesFromCount (moves : List Move) (ks : Option Nat) : Nat :=
  match ks with
  | some k => (moves.filter (fun mv => mv.fromSquare == k)).length
  | none => 0

/-- Post-push adjustment of `get_action_score` (lines 170–197), evaluated on
the pushed board `b1`.  The source computes `enemy_king_moves_before` right
after the push and `enemy_king_moves_after` a few lines later from the very
same board state, so the two counts coincide by construction; both
computations are kept. -/
def postMoveAdjust (R : Rules B) (c : Color) (base : ℚ) (b1 : B) : ℚ :=
  let kingMovesBefore := kingMovesFromCount (R.legalMoves b1) (R.kingSquare b1 (Color.other c))
  let v1 := if R.isCheckmate b1 then (1000000 : ℚ)
            else if R.isStalemate b1 then base - 1000000 else base
  let v2 := if R.isCheck b1 then v1 + 3 else v1
  let kingMovesAfter := kingMovesFromCount (R.legalMoves b1) (R.kingSquare b1 (Color.other c))
  let kmr : ℚ := (kingMovesBefore : ℚ) - (kingMovesAfter : ℚ)
  let v3 := v2 + kmr * 5
  if R.isCheck b1 then v3 + kmr else v3

/-- `GreedyAI.get_action_score` (greedy_ai.py lines 34–199), with the board
state threaded explicitly: the second component is the board left behind
(`push` then `pop` on the piece branch, untouched on the defensive branch). -/
def get_action_scoreB (R : Rules B) (mem : GreedyMem) (b : B) (m : Move) : ℚ × B :=
  match R.pieceAt b m.fromSquare with
  | none => (-1000, b)
  | some fp =>
      (postMoveAdjust R fp.color (preMoveScore R mem b m fp) (R.push b m),
       R.pop (R.push b m))

/-- The score returned by `GreedyAI.get_action_score`. -/
def get_action_score (R : Rules B) (mem : GreedyMem) (b : B) (m : Move) : ℚ :=
  (get_action_scoreB R mem b m).1

end Scoring

/-! ### The `Game` wrapper (backend/src/chess/game.py) -/

/-- Value of the Python attribute `Game.draw`: `None` at construction, a
boolean after `_load_fen`, a reason string after `Game.move` detects a draw.
`truthy` is Python truthiness (non-empty strings are truthy). -/
inductive PyDraw where
  | none
  | bool (b : Bool)
  | str (s : String)
deriving DecidableEq, Repr

/-- Python truthiness of a `Game.draw` value. -/
def PyDraw.truthy : PyDraw → Bool
  | .none => false
  | .bool b => b
  | .str s => !(s == "")

/-- State of a `Game` object: the underlying rules-engine board plus the
cached attributes maintained by `game.py`.  `isCheckmateAttr` is the
attribute literally named `is_checkmate` that `_load_fen` (line 116) sets
instead of `checkmate`; it is written there and read nowhere.  Players,
handlers and `history` play no role in the claims and are omitted. -/
structure GameS (B : Type) where
  board : B
  checkmate : Option Color
  draw : PyDraw
  kingInCheckW : Bool
  kingInCheckB : Bool
  lastPlayer : Color
  winner : Option Color
  isCheckmateAttr : Option Color
deriving DecidableEq, Repr

section GameDefs

variable {B : Type}

/-- `Game.__init__` attribute defaults (game.py lines 21–42); the board is
`None` until `load`/`play` assigns it, represented by the placeholder
argument. -/
def Game.initG (b : B) : GameS B :=
  ⟨b, none, PyDraw.none, false, false, Color.black, none, none⟩

/-- `Game.fen` (line 50). -/
def GameS.fen (R : Rules B) (g : GameS B) : String := R.fen g.board

/-- `Game._load_fen` called on an existing instance (game.py lines 111–118):
loads the board and recomputes `draw`, `king_in_check`, `last_player`, the
misnamed `is_checkmate` attribute and `winner`.  `self.checkmate` is NOT
written by `_load_fen` and keeps its previous value. -/
def GameS.load_fen (R : Rules B) (g : GameS B) (fen : String) : GameS B :=
  let b := R.loadFen fen
  let lastP := match R.turn b with | .black => Color.white | .white => Color.black
  { board := b
    checkmate := g.checkmate
    draw := PyDraw.bool (R.isStalemate b || R.isInsufficientMaterial b ||
              R.isSeventyfiveMoves b || R.isFivefoldRepetition b)
    kingInCheckW := R.isCheck b && (R.turn b == Color.white)
    kingInCheckB := R.isCheck b && (R.turn b == Color.black)
    lastPlayer := lastP
    winner := if R.isCheckmate b then some lastP else none
    isCheckmateAttr := if R.isCheckmate b then some lastP else none }

/-- `Game().load(fen)`: a fresh `Game` (so `checkmate = None`) loaded from a
FEN, as done by `Simulation.__init__` (simulation.py line 8). -/
def Game.newLoaded (R : Rules B) (fen : String) : GameS B :=
  GameS.load_fen R (Game.initG (R.loadFen fen)) fen

/-- `Game.play` with `fen=None` (game.py lines 389–409): fresh attribute
defaults with the board set to `chess.Board()`; player wiring is omitted. -/
def Game.playFresh (R : Rules B) : GameS B :=
  Game.initG R.initialBoard

/-- `Game.move` (game.py lines 172–198).  Raises on an illegal move;
otherwise pushes the move, walks the draw/checkmate `elif` chain, updates
`king_in_check` for the pre-flip `last_player`, then flips `last_player`.
Note that at the `elif is_checkmate` branch `last_player` still holds the
OPPONENT of the mover, so `checkmate`/`winner` record the mated side. -/
def GameS.move (R : Rules B) (g : GameS B) (m : Move) : Except String (GameS B) :=
  if m ∈ R.legalMoves g.board then
    let b2 := R.push g.board m
    let g2 : GameS B :=
      if R.isStalemate b2 then { g with board := b2, draw := PyDraw.str "stalemate" }
      else if R.isInsufficientMaterial b2 then
        { g with board := b2, draw := PyDraw.str "insufficient material" }
      else if R.isSeventyfiveMoves b2 then
        { g with board := b2, draw := PyDraw.str "seventyfive moves" }
      else if R.isFivefoldRepetition b2 then
        { g with board := b2, draw := PyDraw.str "fivefold repetition" }
      else if R.isCheckmate b2 then
        { g with board := b2, checkmate := some g.lastPlayer, winner := some g.lastPlayer }
      else { g with board := b2 }
    let g3 : GameS B :=
      match g.lastPlayer with
      | .white => { g2 with kingInCheckW := R.isCheck b2, kingInCheckB := false }
      | .black => { g2 with kingInCheckB := R.isCheck b2, kingInCheckW := false }
    Except.ok { g3 with lastPlayer := Color.other g.lastPlayer }
  else Except.error ("Illegal move")

/-- `Game.is_game_over` (game.py lines 411–412):
`self.checkmate is not None or self.draw`. -/
def GameS.is_game_over (g : GameS B) : Bool :=
  g.checkmate.isSome || g.draw.truthy

end GameDefs

/-! ### `GreedyAI.play` (backend/models/greedy/greedy_ai.py lines 18–32) -/

/-- The three shapes a return value of `GreedyAI.play` can take in Python:
`None`, a single `chess.Move`, or a list of moves. -/
inductive PlayResult where
  | noMove
  | single (m : Move)
  | ranked (l : List Move)
deriving DecidableEq, Repr

section PlayDefs

variable {B : Type}

/-- Python's built-in `max(all_moves, key=f)`: the FIRST element attaining
the maximal key (later elements replace the running best only on a strictly
greater key). -/
def pyMax (f : Move → ℚ) : List Move → Option Move
  | [] => none
  | x :: xs => some (xs.foldl (fun best y => if f best < f y then y else best) x)

/-- Python's built-in `sorted(l, key=f, reverse=True)`: the stable
descending sort by key.  Stable sorting is part of the `sorted`
specification, so any stable algorithm realises it; we use Mathlib's
insertion sort with the relation "left element's key is at least the
right's", under which ties keep their original order. -/
def pySortedDesc (f : Move → ℚ) (l : List Move) : List Move :=
  l.insertionSort (fun a c => f c ≤ f a)

/-- `GreedyAI.play(topN)` (greedy_ai.py lines 18–32).  Returns `None` when
there is no legal move; with `topN > 0` returns the ranked prefix
`sorted(all_moves, key=score, reverse=True)[:min(topN, len(all_moves))]`
without touching the recent-move memory; otherwise (including `topN = 0`)
returns the single `max` move and shifts the memory, reading the moved
piece with `get_piece(...).piece_type` (an `AttributeError` if absent). -/
def GreedyAI.play (R : Rules B) (mem : GreedyMem) (b : B) (topN : Int) :
    Except String (PlayResult × GreedyMem) :=
  let allMoves := R.legalMoves b
  if allMoves = [] then Except.ok (PlayResult.noMove, mem)
  else if 0 < topN then
    Except.ok (PlayResult.ranked
      ((pySortedDesc (get_action_score R mem b) allMoves).take
        (min topN.toNat allMoves.length)), mem)
  else
    match pyMax (get_action_score R mem b) allMoves with
    | none => Except.error "max arg is an empty sequence"
    | some best =>
        match R.pieceAt b best.fromSquare with
        | none => Except.error "AttributeError: NoneType has no attribute piece_type"
        | some p =>
            Except.ok (PlayResult.single best,
              { lastMovePiece := some p.pieceType, lastLastMovePiece := mem.lastMovePiece })

end PlayDefs

/-! ### The Simulation sandbox (backend/src/chess/simulation.py) -/

/-- State of a `Simulation` object: `initial_game` (the live game the
sandbox was opened from), the sandboxed clone `game`, and the checkpoint
dictionary.  The dictionary is modelled as an association list where a new
entry shadows older ones (first match wins on lookup). -/
structure SimulationS (B : Type) where
  initial : GameS B
  game : GameS B
  checkpoints : List (String × String)
deriving DecidableEq, Repr

section SimulationDefs

variable {B : Type}

/-- `Simulation.__init__` (simulation.py lines 6–9):
`self.game = Game().load(game.fen())`, an independent clone. -/
def SimulationS.init (R : Rules B) (g : GameS B) : SimulationS B :=
  ⟨g, Game.newLoaded R (R.fen g.board), []⟩

/-- `Simulation.checkpoint` (lines 18–19). -/
def SimulationS.checkpoint (R : Rules B) (sim : SimulationS B) (name : String) :
    SimulationS B :=
  { sim with checkpoints := (name, R.fen sim.game.board) :: sim.checkpoints }

/-- The call `Game.load(fen)` of `Simulation.rollback` (simulation.py line
23).  `load` is an instance method, and here it is invoked on the CLASS with
the FEN string as its only argument, so Python binds `fen` to `self` and
raises a `TypeError` for the missing positional parameter `data` before any
body code runs. -/
def Game.loadOnClass (B : Type) (_fen : String) : Except String (GameS B) :=
  Except.error "TypeError: load missing 1 required positional argument data"

/-- `Simulation.rollback` (lines 21–23): the walrus test
`if (fen := self.checkpoints.get(name)):` falls through (no-op) when the
name is absent or the stored string is empty; otherwise it evaluates
`Game.load(fen)`, which raises (see `Game.loadOnClass`). -/
def SimulationS.rollback (sim : SimulationS B) (name : String) :
    Except String (SimulationS B) :=
  match sim.checkpoints.lookup name with
  | none => Except.ok sim
  | some fen =>
      if fen = "" then Except.ok sim
      else (Game.loadOnClass B fen).map (fun g2 => { sim with game := g2 })

/-- `Simulation.reset` (lines 25–30): reload the clone from
`initial_game.fen()` (this recomputes the `_load_fen` flags and keeps the
clone's `checkmate`), then overwrite `checkmate`, `draw`, `king_in_check`
and `last_player` with the SOURCE object's current attribute values
(`winner` keeps the recomputed value). -/
def SimulationS.reset (R : Rules B) (sim : SimulationS B) : SimulationS B :=
  let g2 := GameS.load_fen R sim.game (R.fen sim.initial.board)
  { sim with game :=
      { g2 with checkmate := sim.initial.checkmate
                draw := sim.initial.draw
                kingInCheckW := sim.initial.kingInCheckW
                kingInCheckB := sim.initial.kingInCheckB
                lastPlayer := sim.initial.lastPlayer } }

/-- Apply a sequence of moves inside the sandbox via `sm.game.move(...)`,
as rollout code does between `open()` and `reset()`. -/
def SimulationS.applyMoves (R : Rules B) (sim : SimulationS B) :
    List Move → Except String (SimulationS B)
  | [] => Except.ok sim
  | mv :: rest =>
      match GameS.move R sim.game mv with
      | Except.error e => Except.error e
      | Except.ok g2 => SimulationS.applyMoves R { sim with game := g2 } rest

/-- One iteration step plus recursion of `Simulation.run` (simulation.py
lines 32–61) for a non-negative `depth`, specialised to `engine=GreedyAI`
as at its only relevant call site (greedy_exploration.py line 53).
`engineA` plays White, `engineB` plays Black, each with its own
recent-move memory (threaded; with a positive `topN` they are never
written).  A falsy result (`None` or an empty list) ends the run; a list
result goes through `random.choice`, modelled by the oracle `pick`, which
for the actual library satisfies `pick l ∈ l` on non-empty `l`.  The
unlimited `depth == -1` sentinel branch is not embedded: every call in the
claims' scope uses `depth = exploration_depth = 4`.  `engine.setup()` is
the inherited no-op (engine.py lines 48–53). -/
def runGreedyLoop (R : Rules B) (pick : List Move → Move) (topN : Int) :
    Nat → GameS B → GreedyMem → GreedyMem → Except String (GameS B)
  | 0, g, _, _ => Except.ok g
  | d + 1, g, memA, memB => do
      let step ←
        match R.turn g.board with
        | .white => do
            let (r, mA) ← GreedyAI.play R memA g.board topN
            Except.ok (r, mA, memB)
        | .black => do
            let (r, mB) ← GreedyAI.play R memB g.board topN
            Except.ok (r, memA, mB)
      match step with
      | (PlayResult.noMove, _, _) => Except.ok g
      | (PlayResult.ranked [], _, _) => Except.ok g
      | (PlayResult.ranked l, mA2, mB2) => do
          let g2 ← GameS.move R g (pick l)
          if GameS.is_game_over g2 then Except.ok g2
          else runGreedyLoop R pick topN d g2 mA2 mB2
      | (PlayResult.single mv, mA2, mB2) => do
          let g2 ← GameS.move R g mv
          if GameS.is_game_over g2 then Except.ok g2
          else runGreedyLoop R pick topN d g2 mA2 mB2

/-- `Simulation.run(engine=GreedyAI, depth, play_args={"topN": topN})` with
freshly constructed engines (empty memories). -/
def runGreedy (R : Rules B) (pick : List Move → Move) (g : GameS B)
    (depth : Nat) (topN : Int) : Except String (GameS B) :=
  runGreedyLoop R pick topN depth g ⟨none, none⟩ ⟨none, none⟩

end SimulationDefs

/-! ### `GreedyExplorationAI` (backend/models/greedy/greedy_exploration.py) -/

/-- Constructor configuration of `GreedyExplorationAI.__init__`
(lines 26–29). -/
def explorationSize : Int := 15

/-- `self.exploration_depth = 4`. -/
def explorationDepth : Nat := 4

/-- `self.exploration_sample = 150`. -/
def explorationSample : Nat := 150

/-- `self.choice_exploration = 3`. -/
def choiceExploration : Int := 3

section ExplorationDefs

variable {B : Type}

/-- Per-legal-move bonus of the position score (greedy_exploration.py lines
143–159); `BB_RANK_2|BB_RANK_7` are ranks 1 and 6, `BB_RANK_3|BB_RANK_6`
are ranks 2 and 5. -/
def mobilityTerm (mv : Move) (p : Piece) : ℚ :=
  if p.pieceType = PieceType.pawn then
    (if isCenter mv.toSquare then 5 else 0)
    + (if squareRank mv.toSquare = 7 ∨ squareRank mv.toSquare = 0 then 30 else 0)
    + (if squareRank mv.fromSquare = 1 ∨ squareRank mv.fromSquare = 6 then 1 else 0)
    + (if squareRank mv.toSquare = 2 ∨ squareRank mv.toSquare = 5 then 1 else 0)
  else if p.pieceType ≠ PieceType.king then
    (if isCenter mv.toSquare then 3 else 0)
    + (if squareRank mv.fromSquare = 1 ∨ squareRank mv.fromSquare = 6 then 5 else 0)
  else 0

/-- Material balance of `get_score` (lines 126–136) before the doubling. -/
def materialScore (R : Rules B) (b : B) (c : Color) : ℚ :=
  pieceValue2 .pawn * ((R.pieceCount b .pawn c : ℚ) - (R.pieceCount b .pawn (Color.other c) : ℚ))
  + pieceValue2 .knight * ((R.pieceCount b .knight c : ℚ) - (R.pieceCount b .knight (Color.other c) : ℚ))
  + pieceValue2 .bishop * ((R.pieceCount b .bishop c : ℚ) - (R.pieceCount b .bishop (Color.other c) : ℚ))
  + pieceValue2 .rook * ((R.pieceCount b .rook c : ℚ) - (R.pieceCount b .rook (Color.other c) : ℚ))
  + pieceValue2 .queen * ((R.pieceCount b .queen c : ℚ) - (R.pieceCount b .queen (Color.other c) : ℚ))
  + pieceValue2 .king * ((R.pieceCount b .king c : ℚ) - (R.pieceCount b .king (Color.other c) : ℚ))

/-- `Game.find_piece_box` (game.py lines 365–373): scan `board.piece_map()`
(which `python-chess` yields in descending square order) for the first
piece of the given type and colour. -/
def findPieceBoxDesc (R : Rules B) (b : B) (pt : PieceType) (c : Color) : Option Nat :=
  (List.range 64).reverse.find? (fun sq => R.pieceAt b sq == some ⟨pt, c⟩)

/-- `GreedyExplorationAI.get_score(game)` (greedy_exploration.py lines
113–186), evaluating the sandboxed game `g` for `color`.  NOTE (faithful to
the source): the "ennemy king box" block (lines 167–168) calls
`self.game.find_piece_box` / `self.game.get_possible_moves`, i.e. it reads
the LIVE game `base`, not the sandboxed `g`; both calls are read-only.
`Game.find_piece_box` raises `"Piece not found"` when the piece is absent;
`board.piece_at(from_square)` being `None` inside the mobility loop and
`None in SquareSet` at the king-centre test would raise, modelled as
errors.  Python's `if king_square:` (line 173) is FALSE for square 0. -/
def get_score (R : Rules B) (color : Color) (g : GameS B) (base : GameS B) :
    Except String ℚ := do
  let score0 := materialScore R g.board color * 2
  let score1 ← (R.legalMoves g.board).foldlM (fun acc mv =>
      match R.pieceAt g.board mv.fromSquare with
      | none => Except.error "AttributeError: NoneType has no attribute piece_type"
      | some p => Except.ok (acc + mobilityTerm mv p)) score0
  let score2 ←
    match R.kingSquare g.board (Color.other color) with
    | none => Except.error "TypeError: square is None"
    | some ek => Except.ok (if isCenter ek then score1 + 100 else score1)
  let score3 ←
    match findPieceBoxDesc R base.board PieceType.king (Color.other color) with
    | none => Except.error "Piece not found"
    | some box =>
        Except.ok (score2 -
          (((R.legalMoves base.board).filter (fun mv => mv.fromSquare == box)).length : ℚ) * 2)
  let score4 :=
    match R.kingSquare g.board color with
    | some k =>
        if k ≠ 0 then
          (if R.hasKingside g.board color || R.hasQueenside g.board color
           then score3 + 20 else score3 - 20)
          + ((pawnAttackSquares color k).countP
              (fun sq => (R.pieceAt g.board sq).any (fun p => p.pieceType == PieceType.pawn)) : ℚ) * 10
        else score3
    | none => score3
  pure score4

/-- One rollout sample: the closure `single_simulation` of
`GreedyExplorationAI.simulate_move` (greedy_exploration.py lines 50–75).
`base` is the live game `self.game`, `color` is `self.color`, `movePiece`
is `move_piece` (computed by `simulate_move` at line 47 from the live
game).  The second component of the result is the live game as the sample
leaves it: the sample only ever reads it — `self.game.fen()` inside
`Simulation.__init__`, `self.game.get_piece(move.to_square)` at the
edge-penalty test, and the two `self.game` reads inside `get_score` — and
every write targets the sandbox clone `sm.game`, so the live game is
returned unchanged on every path, including error paths. -/
def single_simulation (R : Rules B) (pick : List Move → Move) (base : GameS B)
    (color : Color) (movePiece : PieceType) (m : Move) :
    Except String ℚ × GameS B :=
  let sm := SimulationS.init R base
  let res : Except String ℚ := do
    let g1 ← GameS.move R sm.game m
    let g2 ← runGreedy R pick g1 explorationDepth choiceExploration
    if GameS.is_game_over g2 then
      -- Early-stopping block (lines 56–61).  `sm.game.checkmate` holds the
      -- mated side or `None`; Python `None != color` is true, so the first
      -- branch also captures every drawn terminal state, and `return 0` is
      -- unreachable.
      if g2.checkmate ≠ some color then pure 1000000
      else if g2.checkmate = some color then pure (-1000000)
      else pure 0
    else do
      let score ← get_score R color g2 base
      let score := if isEdge m.toSquare ∧ movePiece ≠ PieceType.bishop ∧
                      R.pieceAt base.board m.toSquare = none
                   then score - 100 else score
      let score := if m.fromSquare = 4 ∧ (m.toSquare = 6 ∨ m.toSquare = 2)
                   then score + 200 else score
      let score := if m.fromSquare = 60 ∧ (m.toSquare = 62 ∨ m.toSquare = 58)
                   then score + 200 else score
      pure score
  (res, base)

/-- `np.argmax` on a list of scores: index of the FIRST maximal element. -/
def argmaxIdxAux (best : ℚ) (bestIdx idx : Nat) : List ℚ → Nat
  | [] => bestIdx
  | x :: xs =>
      if best < x then argmaxIdxAux x idx (idx + 1) xs
      else argmaxIdxAux best bestIdx (idx + 1) xs

/-- `np.argmax`. -/
def argmaxIdx : List ℚ → Nat
  | [] => 0
  | x :: xs => argmaxIdxAux x 0 1 xs

/-- The move-selection flow of `GreedyExplorationAI.play` (lines 81–111).
`evalScores` abstracts the concurrent fan-out
`asyncio.gather(*(self.simulate_move(move) for move in top_moves))`: it
returns one aggregate score per candidate (mean of the samples plus the
candidate-level penalty).  `greedyMem` is the state of the lazily created
`self.greedy`; `selMem` is the selector's own recent-move memory.  A falsy
candidate pool (`None`, or an empty list) short-circuits to `None` before
any simulation; the `.single` shape cannot arise from
`play(topN=exploration_size)` and would fail in Python when iterated. -/
def GreedyExplorationAI.play (R : Rules B) (evalScores : List Move → List ℚ)
    (greedyMem selMem : GreedyMem) (g : GameS B) :
    Except String (Option Move × GreedyMem × GreedyMem) := do
  let (res, gm2) ← GreedyAI.play R greedyMem g.board explorationSize
  match res with
  | PlayResult.noMove => Except.ok (none, gm2, selMem)
  | PlayResult.ranked [] => Except.ok (none, gm2, selMem)
  | PlayResult.ranked l =>
      let scores := evalScores l
      let i := argmaxIdx scores
      match l.get? i with
      | none => Except.error "IndexError: list index out of range"
      | some chosen =>
          match R.pieceAt g.board chosen.fromSquare with
          | none => Except.error "AttributeError: NoneType has no attribute piece_type"
          | some p =>
              Except.ok (some chosen, gm2,
                { lastMovePiece := some p.pieceType, lastLastMovePiece := selMem.lastMovePiece })
  | PlayResult.single _ => Except.error "TypeError: Move object is not iterable"

end ExplorationDefs

/-! ### Spec-modelled comparison definition for the escaping bonus -/

section SpecEscape

variable {B : Type}

/-- Modelled from the spec sentence "bonus if the moving piece's origin
square was itself under attack (escaping)": identical to `tacticalTerm`
except that the escaping bonus is granted iff at least one enemy piece
attacks the origin square. -/
def tacticalTermSpec (R : Rules B) (b : B) (m : Move) (pt : PieceType) (c : Color) : ℚ :=
  let attackers := R.attackersCount b (Color.other c) m.toSquare + 1
  let defenders := R.attackersCount b c m.toSquare
  (if 1 < attackers then -(pieceValue pt * 8) else 0)
  + (if defenders < attackers then -(pieceValue pt * 5) else 0)
  + (if 0 < R.attackersCount b (Color.other c) m.fromSquare then pieceValue pt * 5 else 0)

/-- Modelled from the spec: `score_move` as the spec describes it, identical
to `get_action_score` except for the conditional escaping bonus
(`tacticalTermSpec` in place of `tacticalTerm`). -/
def get_action_score_specEscape (R : Rules B) (mem : GreedyMem) (b : B) (m : Move) : ℚ :=
  match R.pieceAt b m.fromSquare with
  | none => -1000
  | some fp =>
      postMoveAdjust R fp.color
        (pieceValue fp.pieceType
          + captureTerm R b m
          + repetitionTerm mem fp.pieceType
          + developmentTerm m fp.color
          + castlingTerm m fp.pieceType
          + centerTerm m
          + edgeTerm m
          + pieceTypeTerm R b m fp.pieceType fp.color
          + promotionTerm m
          + tacticalTermSpec R b m fp.pieceType fp.color)
        (R.push b m)

/-- Replace the rules-engine answer for `attackers(c, sq)` by the constant
`k`, leaving every other query unchanged — used to state that a score does
not depend on that single attacker count. -/
def Rules.withAttackers (R : Rules B) (c : Color) (sq : Nat) (k : Nat) : Rules B :=
  { R with attackersCount := fun b c2 s2 =>
      if c2 = c ∧ s2 = sq then k else R.attackersCount b c2 s2 }

end SpecEscape

/-! ### Concrete rules-engine instances for witnesses and counterexamples -/

/-- The empty recent-move memory (fresh `GreedyAI`). -/
def memE : GreedyMem := ⟨none, none⟩

/-- A deterministic stand-in for `random.choice`: the head of the list. -/
def headPick : List Move → Move := fun l => l.headD ⟨0, 0, none⟩

/-- The single legal move of the small instances: a pawn step a2–a3. -/
def mv0 : Move := ⟨8, 16, none⟩

/-- A minimal concrete rules engine over board states `Nat`: state 0 has the
single legal move `mv0` with a white pawn on a2 and no attacks, checks or
terminal flags anywhere; `push` increments the state and `pop` undoes it.
FEN strings encode the state in unary so that `loadFen` inverts `fen`. -/
def Rsimple : Rules Nat :=
  { pieceAt := fun _ sq => if sq = 8 then some ⟨PieceType.pawn, Color.white⟩ else none
    legalMoves := fun s => if s = 0 then [mv0] else []
    push := fun s _ => s + 1
    pop := fun s => s - 1
    turn := fun _ => Color.white
    isCheck := fun _ => false
    isCheckmate := fun _ => false
    isStalemate := fun _ => false
    isInsufficientMaterial := fun _ => false
    isSeventyfiveMoves := fun _ => false
    isFivefoldRepetition := fun _ => false
    kingSquare := fun _ _ => none
    attackersCount := fun _ _ _ => 0
    attacksCount := fun _ _ => 0
    pieceCount := fun _ _ _ => 0
    hasKingside := fun _ _ => false
    hasQueenside := fun _ _ => false
    fullmoveNumber := fun _ => 1
    fen := fun n => String.mk (List.replicate n 'a')
    loadFen := fun s => s.length
    initialBoard := 0 }

/-- Rules engine for the stalemate rollout scenario: as `Rsimple`, except
that the state reached by pushing the candidate move is stalemate (a drawn
terminal position with no legal moves), with Black to move there. -/
def Rstale : Rules Nat :=
  { Rsimple with
    isStalemate := fun s => s == 1
    turn := fun s => if s = 1 then Color.black else Color.white }

/-- Rules engine for the mate-domination witness: from state 0 the queen
move `mvMate` reaches a checkmate state, the pawn move `mv0` does not. -/
def mvMate : Move := ⟨10, 50, none⟩

/-- See `mvMate`. -/
def Rmate : Rules Nat :=
  { Rsimple with
    pieceAt := fun _ sq =>
      if sq = 10 then some ⟨PieceType.queen, Color.white⟩
      else if sq = 8 then some ⟨PieceType.pawn, Color.white⟩ else none
    legalMoves := fun s => if s = 0 then [mvMate, mv0] else []
    push := fun _ mv => if mv == mvMate then 1 else 2
    isCheckmate := fun s => s == 1 }

/-- The a1-rook move of the castling-rights scenario (a1–a4). -/
def mvRook : Move := ⟨0, 24, none⟩

/-- Rules engine with three otherwise-identical board states holding a white
rook on a1: state 0 has only the white QUEENSIDE castling right (the a-rook's
own right), state 1 has no castling rights, state 2 has only the white
KINGSIDE right. -/
def Rcastle : Rules Nat :=
  { Rsimple with
    pieceAt := fun _ sq => if sq = 0 then some ⟨PieceType.rook, Color.white⟩ else none
    legalMoves := fun s => if s ≤ 2 then [mvRook] else []
    push := fun s _ => s + 10
    hasQueenside := fun s c => c == Color.white && s == 0
    hasKingside := fun s c => c == Color.white && s == 2 }

/-- A sandbox state holding one stored checkpoint named `"cp"`. -/
def simCp : SimulationS Nat :=
  ⟨Game.initG 0, Game.initG 0, [("cp", "aaa")]⟩

/-! ### Small helper lemmas -/

theorem color_ne_other (c : Color) : (c = Color.other c) ↔ False := by
  cases c <;> simp [Color.other]

/-! ### C1 — terminal scoring of a rollout sample -/

/-- C1: "For every rollout sample whose Sandbox reaches a terminal state …
the sample's score is … 0 when the terminal state is a stalemate/draw."
The code violates the stalemate part: in `single_simulation` the branches
`checkmate != self.color` / `checkmate == self.color` are mutually
exhaustive and Python's `None != color` is true, so a drawn sandbox
(`checkmate = None`) takes the first branch and scores +1,000,000; the
`return 0  # Stalemate` line is unreachable, contradicting its own comment.
This theorem evaluates the code at such a failing input: in `Rstale` the
candidate move `mv0` immediately stalemates the clone (first conjunct), and
the sample then returns +1,000,000 instead of the claimed 0 (second
conjunct). -/
theorem rollout_terminal_draw_scores_plus_million :
    (GameS.move Rstale (SimulationS.init Rstale (Game.playFresh Rstale)).game mv0).map
        (fun g => (g.draw, g.checkmate)) = Except.ok (PyDraw.str "stalemate", none) ∧
    (single_simulation Rstale headPick (Game.playFresh Rstale)
        Color.white PieceType.pawn mv0).1 = Except.ok 1000000 := by
  constructor
  · rfl
  · rfl

/-! ### C4 — rollback -/

/-- C4: "rollback(name) never raises: if a checkpoint with that name is
present it restores the Sandbox's position …".  The code violates the
restore half: `rollback` calls `Game.load(fen)` on the CLASS, so Python
raises a `TypeError` (missing positional argument `data`) whenever a
checkpoint is found; the absent-name no-op half holds.  Evaluated here on a
sandbox holding the checkpoint `"cp"`. -/
theorem rollback_checkpoint_raises :
    SimulationS.rollback simCp "missing" = Except.ok simCp ∧
    SimulationS.rollback simCp "cp"
      = Except.error "TypeError: load missing 1 required positional argument data" := by
  constructor <;> rfl

/-! ### C6 — rook castling-rights penalty -/

/-- C6: "score_move applies the heavy -20 penalty to a move of that rook off
its home square [when it still holds castling rights]; moving a rook whose
castling right is already gone incurs no such penalty."  The code pairs the
rights crosswise: it tests KINGSIDE rights for the a-file rook and
QUEENSIDE rights for the h-file rook (greedy_ai.py lines 127–134),
contradicting its own comment "don't move if we still can castle".  In
`Rcastle`, board 0 (white queenside right only — the a1-rook's own right)
scores the a1-rook move exactly like board 1 (no rights at all): no penalty
although the rook still holds its right.  Board 2 (kingside right only —
the a1-rook's right gone) scores 20 lower: the penalty fires exactly when
the claim says it must not. -/
theorem rook_castling_penalty_swapped :
    get_action_score Rcastle memE 0 mvRook = get_action_score Rcastle memE 1 mvRook ∧
    get_action_score Rcastle memE 2 mvRook = get_action_score Rcastle memE 1 mvRook - 20 := by
  constructor
  · rfl
  · simp [get_action_score, get_action_scoreB, preMoveScore, postMoveAdjust, captureTerm,
      repetitionTerm, developmentTerm, castlingTerm, centerTerm, edgeTerm, pieceTypeTerm,
      promotionTerm, tacticalTerm, rookCastleTerm, kingMovesFromCount, coordDist, natDist,
      squareRank, squareFile, isCenter, isEdge, pieceValue, initialRank, Rcastle, Rsimple,
      mvRook, memE, Color.other]
    norm_num

/-! ### C7 — the escaping bonus -/

/-- C7 (counterexample): the claim says the escaping bonus is added iff the
origin square has at least one enemy attacker, and that with zero attackers
no bonus is added.  In `Rsimple` no square has any attacker (first
conjunct), yet `get_action_score` differs from the spec-modelled
`get_action_score_specEscape` (which adds the bonus only when the origin is
attacked) on the pawn move `mv0` — the bonus is present regardless. -/
theorem escape_bonus_without_attackers :
    Rsimple.attackersCount 0 (Color.other Color.white) mv0.fromSquare = 0 ∧
    get_action_score Rsimple memE 0 mv0 ≠ get_action_score_specEscape Rsimple memE 0 mv0 := by
  constructor
  · rfl
  · simp [get_action_score, get_action_scoreB, get_action_score_specEscape, preMoveScore,
      postMoveAdjust, captureTerm, repetitionTerm, developmentTerm, castlingTerm, centerTerm,
      edgeTerm, pieceTypeTerm, promotionTerm, tacticalTerm, tacticalTermSpec, kingMovesFromCount,
      coordDist, natDist, squareRank, squareFile, isCenter, isEdge, pieceValue, initialRank,
      Rsimple, mv0, memE, Color.other]

/-- C7 (amended): the escaping bonus is added unconditionally — the source
computes `attackers_from` as the enemy-attacker count of the origin PLUS
ONE, so its guard `attackers_from > 0` always holds and the score does not
depend on the enemy-attacker count of the origin square at all: replacing
the rules-engine answer for that one query by any constant `k` leaves
`score_move` unchanged. -/
theorem escape_bonus_unconditional {B : Type} (R : Rules B) (mem : GreedyMem) (b : B)
    (m : Move) (k : Nat) (p : Piece)
    (hp : R.pieceAt b m.fromSquare = some p)
    (hft : m.toSquare ≠ m.fromSquare) :
    get_action_score (R.withAttackers (Color.other p.color) m.fromSquare k) mem b m
      = get_action_score R mem b m := by
  simp only [get_action_score, get_action_scoreB, Rules.withAttackers, hp, preMoveScore,
    postMoveAdjust, captureTerm, repetitionTerm, developmentTerm, castlingTerm, centerTerm,
    edgeTerm, pieceTypeTerm, promotionTerm, tacticalTerm, rookCastleTerm, backRankOwnCount,
    kingMovesFromCount]
  simp [hft, color_ne_other, Nat.zero_lt_succ]

/-- Witness for `escape_bonus_unconditional` at the concrete instance
`Rsimple`, pawn move `mv0`, constant `k = 3`. -/
theorem escape_bonus_unconditional_witness :
    get_action_score
        (Rsimple.withAttackers (Color.other Color.white) mv0.fromSquare 3) memE 0 mv0
      = get_action_score Rsimple memE 0 mv0 :=
  escape_bonus_unconditional Rsimple memE 0 mv0 3 ⟨PieceType.pawn, Color.white⟩ rfl
    (by decide)

/-! ### C9 — frame property of scoring and rollouts -/

/-- C9: "Neither scoring nor simulation mutates the live base position":
`get_action_score` leaves the board it evaluated unchanged — the board it
returns is `pop (push b m)` on the piece branch (equal to `b` by the
rules-engine stack contract `hpp`) and `b` itself on the defensive branch —
and a rollout sample returns the live game exactly as it received it (every
write in `single_simulation` targets the sandbox clone), so its
serialisation is unchanged. -/
theorem score_and_rollout_preserve_base {B : Type} (R : Rules B) (mem : GreedyMem)
    (b : B) (m : Move) (pick : List Move → Move) (base : GameS B)
    (color : Color) (mp : PieceType) (mv : Move)
    (hpp : R.pop (R.push b m) = b) :
    (get_action_scoreB R mem b m).2 = b ∧
    (single_simulation R pick base color mp mv).2 = base ∧
    R.fen (single_simulation R pick base color mp mv).2.board = R.fen base.board := by
  refine ⟨?_, rfl, rfl⟩
  unfold get_action_scoreB
  cases h : R.pieceAt b m.fromSquare <;> simp [hpp]

/-- Witness for `score_and_rollout_preserve_base` on `Rsimple`, where
`pop (push 0 mv0) = 0` holds by computation. -/
theorem score_and_rollout_preserve_base_witness :
    (get_action_scoreB Rsimple memE 0 mv0).2 = 0 ∧
    (single_simulation Rsimple headPick (Game.playFresh Rsimple)
        Color.white PieceType.pawn mv0).2 = Game.playFresh Rsimple := by
  have h := score_and_rollout_preserve_base Rsimple memE 0 mv0 headPick
    (Game.playFresh Rsimple) Color.white PieceType.pawn mv0 rfl
  exact ⟨h.1, h.2.1⟩

/-! ### C3 — a mating move dominates every non-mating move -/

theorem pieceValue_le_ten (pt : PieceType) : pieceValue pt ≤ 10 := by
  cases pt <;> norm_num [pieceValue]

theorem pieceValue_nonneg (pt : PieceType) : 0 ≤ pieceValue pt := by
  cases pt <;> norm_num [pieceValue]

theorem captureTerm_le {B : Type} (R : Rules B) (b : B) (m : Move) :
    captureTerm R b m ≤ 90 := by
  unfold captureTerm
  cases R.pieceAt b m.toSquare with
  | none => norm_num
  | some cp =>
      show pieceValue cp.pieceType * 9 ≤ 90
      have := pieceValue_le_ten cp.pieceType
      linarith

theorem tacticalTerm_le {B : Type} (R : Rules B) (b : B) (m : Move) (pt : PieceType)
    (c : Color) : tacticalTerm R b m pt c ≤ 50 := by
  have h0 := pieceValue_nonneg pt
  have h10 := pieceValue_le_ten pt
  dsimp only [tacticalTerm]
  split_ifs <;> linarith

theorem natDist_le_of_le {a b k : Nat} (ha : a ≤ k) (hb : b ≤ k) : natDist a b ≤ k := by
  unfold natDist; omega

theorem squareFile_le_seven (sq : Nat) : squareFile sq ≤ 7 := by
  have : sq % 8 < 8 := Nat.mod_lt _ (by norm_num)
  unfold squareFile; omega

theorem squareRank_le_seven {sq : Nat} (h : sq < 64) : squareRank sq ≤ 7 := by
  unfold squareRank; omega

theorem coordDist_nonneg (a b : Nat) : 0 ≤ coordDist a b := by
  unfold coordDist; positivity

theorem coordDist_le_fourteen {a b : Nat} (ha : a < 64) (hb : b < 64) :
    coordDist a b ≤ 14 := by
  unfold coordDist
  have h1 : natDist (squareFile a) (squareFile b) ≤ 7 :=
    natDist_le_of_le (squareFile_le_seven a) (squareFile_le_seven b)
  have h2 : natDist (squareRank a) (squareRank b) ≤ 7 :=
    natDist_le_of_le (squareRank_le_seven ha) (squareRank_le_seven hb)
  have c1 : (natDist (squareFile a) (squareFile b) : ℚ) ≤ 7 := by exact_mod_cast h1
  have c2 : (natDist (squareRank a) (squareRank b) : ℚ) ≤ 7 := by exact_mod_cast h2
  linarith

theorem rookCastleTerm_nonpos {B : Type} (R : Rules B) (b : B) (m : Move) (c : Color) :
    rookCastleTerm R b m c ≤ 0 := by
  unfold rookCastleTerm; cases c <;> split_ifs <;> norm_num

theorem pieceTypeTerm_le {B : Type} (R : Rules B) (b : B) (m : Move) (pt : PieceType)
    (c : Color) (hatk : R.attacksCount b m.toSquare ≤ 64)
    (hf : m.fromSquare < 64) (ht : m.toSquare < 64) :
    pieceTypeTerm R b m pt c ≤ 30 := by
  have hD := coordDist_le_fourteen hf ht
  have hD0 := coordDist_nonneg m.fromSquare m.toSquare
  have hA : (R.attacksCount b m.toSquare : ℚ) ≤ 64 := by exact_mod_cast hatk
  have hrc := rookCastleTerm_nonpos R b m c
  have hq : (0 : ℚ) ≤ (backRankOwnCount R b c : ℚ) := by positivity
  cases pt <;> dsimp only [pieceTypeTerm] <;>
    first
    | (split_ifs <;> linarith)
    | linarith

theorem repetitionTerm_nonpos (mem : GreedyMem) (pt : PieceType) :
    repetitionTerm mem pt ≤ 0 := by
  unfold repetitionTerm; split_ifs <;> norm_num

theorem developmentTerm_le (m : Move) (c : Color) : developmentTerm m c ≤ 5 := by
  unfold developmentTerm; split_ifs <;> norm_num

theorem castlingTerm_le (m : Move) (pt : PieceType) : castlingTerm m pt ≤ 15 := by
  unfold castlingTerm; split_ifs <;> norm_num

theorem centerTerm_le (m : Move) : centerTerm m ≤ 5 := by
  unfold centerTerm; split_ifs <;> norm_num

theorem edgeTerm_nonpos (m : Move) : edgeTerm m ≤ 0 := by
  unfold edgeTerm; split_ifs <;> norm_num

theorem promotionTerm_le (m : Move) : promotionTerm m ≤ 27 := by
  unfold promotionTerm
  cases m.promotion with
  | none => norm_num
  | some pp =>
      show (pieceValue pp - 1) * 3 ≤ 27
      have := pieceValue_le_ten pp
      linarith

/-- Every pre-push heuristic contribution is bounded: the capture term by
9 · 10, the bishop attacked-square bonus via `hatk`, the coordinate
distances because squares are below 64, and every other positive term is a
constant of the source. -/
theorem preMoveScore_le {B : Type} (R : Rules B) (mem : GreedyMem) (b : B) (m : Move)
    (fp : Piece) (hatk : R.attacksCount b m.toSquare ≤ 64)
    (hf : m.fromSquare < 64) (ht : m.toSquare < 64) :
    preMoveScore R mem b m fp ≤ 232 := by
  unfold preMoveScore
  have h1 := pieceValue_le_ten fp.pieceType
  have h2 := captureTerm_le R b m
  have h3 := repetitionTerm_nonpos mem fp.pieceType
  have h4 := developmentTerm_le m fp.color
  have h5 := castlingTerm_le m fp.pieceType
  have h6 := centerTerm_le m
  have h7 := edgeTerm_nonpos m
  have h8 := pieceTypeTerm_le R b m fp.pieceType fp.color hatk hf ht
  have h9 := promotionTerm_le m
  have h10 := tacticalTerm_le R b m fp.pieceType fp.color
  linarith

/-- Without a checkmate the post-push adjustment can only add the check
bonus (+3); the king-mobility "reduction" is the difference of two
identical counts, hence 0. -/
theorem postMoveAdjust_le {B : Type} (R : Rules B) (c : Color) (base : ℚ) (b1 : B)
    (hnm : R.isCheckmate b1 = false) (hb : base ≤ 232) :
    postMoveAdjust R c base b1 ≤ 235 := by
  simp only [postMoveAdjust, hnm, Bool.false_eq_true, if_false, sub_self, zero_mul, add_zero]
  split_ifs <;> linarith

/-- On the mate branch the source assigns `value = 1e6`, then can only add
the check bonus, so the result is at least 1,000,000. -/
theorem postMoveAdjust_ge {B : Type} (R : Rules B) (c : Color) (base : ℚ) (b1 : B)
    (hm : R.isCheckmate b1 = true) :
    (1000000 : ℚ) ≤ postMoveAdjust R c base b1 := by
  simp only [postMoveAdjust, hm, if_true, sub_self, zero_mul, add_zero]
  split_ifs <;> linarith

/-- C3: a move delivering immediate checkmate scores strictly above every
non-mating move of the same position under `score_move`
(`GreedyAI.get_action_score`).  The mate branch ASSIGNS `value = 1e6`
(discarding the heuristic terms), so the mating score is at least
1,000,000; a non-mating score is the bounded heuristic sum — at most 235 —
possibly lowered further by the stalemate penalty.  Hypotheses: the mating
move has a piece on its origin (`hp1`, true of every legal move); the
non-mating move is inside the board (`hf`, `ht`: squares below 64) and the
rules engine reports at most 64 attacked squares from its destination
(`hatk`, an invariant of a 64-square board). -/
theorem mate_move_dominates {B : Type} (R : Rules B) (mem : GreedyMem) (b : B)
    (m1 m2 : Move) (p1 : Piece)
    (hp1 : R.pieceAt b m1.fromSquare = some p1)
    (hmate : R.isCheckmate (R.push b m1) = true)
    (hnomate : R.isCheckmate (R.push b m2) = false)
    (hatk : R.attacksCount b m2.toSquare ≤ 64)
    (hf : m2.fromSquare < 64) (ht : m2.toSquare < 64) :
    get_action_score R mem b m2 < get_action_score R mem b m1 := by
  have hub : get_action_score R mem b m2 ≤ 235 := by
    unfold get_action_score get_action_scoreB
    cases hp : R.pieceAt b m2.fromSquare with
    | none => norm_num
    | some fp =>
        have := preMoveScore_le R mem b m2 fp hatk hf ht
        simpa using postMoveAdjust_le R fp.color _ (R.push b m2) hnomate this
  have hlb : (1000000 : ℚ) ≤ get_action_score R mem b m1 := by
    unfold get_action_score get_action_scoreB
    rw [hp1]
    simpa using postMoveAdjust_ge R p1.color _ (R.push b m1) hmate
  linarith

/-- Witness for `mate_move_dominates` on `Rmate`: the queen move `mvMate`
mates, the pawn move `mv0` does not. -/
theorem mate_move_dominates_witness :
    get_action_score Rmate memE 0 mv0 < get_action_score Rmate memE 0 mvMate :=
  mate_move_dominates Rmate memE 0 mvMate mv0 ⟨PieceType.queen, Color.white⟩
    rfl rfl rfl (by decide) (by decide) (by decide)

/-! ### C8 — no legal moves -/

/-- C8: with no legal moves at decision time, `GreedyAI.play` (the ranking
call, invoked by the selector with `topN = exploration_size`) returns the
`None` candidate pool without raising, and `GreedyExplorationAI.play`
short-circuits on the falsy pool and returns the explicit "no move"
result, never an error — before any simulation is launched (the abstract
evaluator `evalScores` is never consulted). -/
theorem no_legal_moves_returns_no_move {B : Type} (R : Rules B)
    (evalScores : List Move → List ℚ) (gm sm : GreedyMem) (g : GameS B)
    (h : R.legalMoves g.board = []) :
    GreedyAI.play R gm g.board explorationSize = Except.ok (PlayResult.noMove, gm) ∧
    GreedyExplorationAI.play R evalScores gm sm g = Except.ok (none, gm, sm) := by
  have h1 : GreedyAI.play R gm g.board explorationSize
      = Except.ok (PlayResult.noMove, gm) := by
    unfold GreedyAI.play
    simp [h]
  refine ⟨h1, ?_⟩
  unfold GreedyExplorationAI.play
  rw [h1]
  rfl

/-- Witness for `no_legal_moves_returns_no_move` on `Rsimple`, whose board
state 5 has no legal moves. -/
theorem no_legal_moves_returns_no_move_witness :
    GreedyAI.play Rsimple memE (Game.initG (5 : Nat)).board explorationSize
        = Except.ok (PlayResult.noMove, memE) ∧
    GreedyExplorationAI.play Rsimple (fun _ => []) memE memE (Game.initG (5 : Nat))
        = Except.ok (none, memE, memE) :=
  no_legal_moves_returns_no_move Rsimple (fun _ => []) memE memE (Game.initG 5) rfl

/-! ### C10 — memory effects of the two play modes -/

theorem pyMax_foldl_spec (f : Move → ℚ) :
    ∀ (xs : List Move) (x : Move),
      (xs.foldl (fun best y => if f best < f y then y else best) x = x ∨
        xs.foldl (fun best y => if f best < f y then y else best) x ∈ xs) ∧
      f x ≤ f (xs.foldl (fun best y => if f best < f y then y else best) x) ∧
      ∀ y ∈ xs, f y ≤ f (xs.foldl (fun best y => if f best < f y then y else best) x) := by
  intro xs
  induction xs with
  | nil =>
      intro x
      refine ⟨Or.inl rfl, le_refl _, ?_⟩
      intro y hy
      simp at hy
  | cons z zs ih =>
      intro x
      have hstep : (z :: zs).foldl (fun best y => if f best < f y then y else best) x
          = zs.foldl (fun best y => if f best < f y then y else best)
              (if f x < f z then z else x) := rfl
      obtain ⟨hmem, hle, hall⟩ := ih (if f x < f z then z else x)
      rw [hstep]
      have hxstep : f x ≤ f (if f x < f z then z else x) := by
        split_ifs with hcomp
        · exact le_of_lt hcomp
        · exact le_refl _
      have hzstep : f z ≤ f (if f x < f z then z else x) := by
        split_ifs with hcomp
        · exact le_refl _
        · exact le_of_not_lt hcomp
      refine ⟨?_, le_trans hxstep hle, ?_⟩
      · rcases hmem with h | h
        · rw [h]
          split_ifs with hcomp
          · exact Or.inr (List.mem_cons_self z zs)
          · exact Or.inl rfl
        · exact Or.inr (List.mem_cons_of_mem z h)
      · intro y hy
        rcases List.mem_cons.mp hy with rfl | hy2
        · exact le_trans hzstep hle
        · exact hall y hy2

/-- C10: ranking mode has no side effect on the recent-move memory — for
every position, `GreedyAI.play` with `topN > 0` returns with the memory
unchanged — whereas single-best-move mode (`topN <= 0`, a move being
available) shifts the memory: `last_move_piece` becomes the chosen move's
piece type and the previous value moves to `last_last_move_piece`. -/
theorem play_memory_update_modes {B : Type} (R : Rules B) (mem : GreedyMem) (b : B) :
    (∀ topN : Int, 0 < topN →
      ∃ r, GreedyAI.play R mem b topN = Except.ok (r, mem)) ∧
    (R.legalMoves b ≠ [] →
      (∀ mv ∈ R.legalMoves b, (R.pieceAt b mv.fromSquare).isSome) →
      ∀ topN : Int, topN ≤ 0 →
        ∃ m p, R.pieceAt b m.fromSquare = some p ∧ m ∈ R.legalMoves b ∧
          GreedyAI.play R mem b topN
            = Except.ok (PlayResult.single m,
                ⟨some p.pieceType, mem.lastMovePiece⟩)) := by
  constructor
  · intro topN htop
    unfold GreedyAI.play
    by_cases hleg : R.legalMoves b = []
    · exact ⟨PlayResult.noMove, by simp [hleg]⟩
    · exact ⟨PlayResult.ranked ((pySortedDesc (get_action_score R mem b)
        (R.legalMoves b)).take (min topN.toNat (R.legalMoves b).length)),
        by simp [hleg, htop]⟩
  · intro hne hpc topN htop
    cases hleg : R.legalMoves b with
    | nil => exact absurd hleg hne
    | cons x xs =>
        obtain ⟨hmem, hxle, hall⟩ := pyMax_foldl_spec (get_action_score R mem b) xs x
        have hbmem : xs.foldl
            (fun best y => if get_action_score R mem b best < get_action_score R mem b y
              then y else best) x ∈ x :: xs := by
          rcases hmem with h | h
          · rw [h]; exact List.mem_cons_self x xs
          · exact List.mem_cons_of_mem x h
        have hbmem2 : xs.foldl
            (fun best y => if get_action_score R mem b best < get_action_score R mem b y
              then y else best) x ∈ R.legalMoves b := by rw [hleg]; exact hbmem
        obtain ⟨p, hp⟩ := Option.isSome_iff_exists.mp (hpc _ hbmem2)
        refine ⟨_, p, hp, hbmem, ?_⟩
        have hnotpos : ¬ (0 < topN) := not_lt.mpr htop
        unfold GreedyAI.play
        simp [hleg, hnotpos, pyMax, hp]

/-- Witness for `play_memory_update_modes` on `Rsimple`: `topN = 7` leaves
the memory untouched, `topN = -1` shifts it. -/
theorem play_memory_update_modes_witness :
    (∃ r, GreedyAI.play Rsimple memE 0 7 = Except.ok (r, memE)) ∧
    (∃ m p, Rsimple.pieceAt 0 m.fromSquare = some p ∧ m ∈ Rsimple.legalMoves 0 ∧
      GreedyAI.play Rsimple memE 0 (-1)
        = Except.ok (PlayResult.single m, ⟨some p.pieceType, memE.lastMovePiece⟩)) := by
  have h := play_memory_update_modes Rsimple memE 0
  exact ⟨h.1 7 (by norm_num), h.2 (by decide) (by decide) (-1) (by norm_num)⟩

/-! ### C2 — ranking via `topN` -/

/-- C2 (counterexample): the claim says `top_n >= 0` returns at most
`top_n` moves — so at `top_n = 0` an empty candidate list.  The source's
guard is `if topN > 0:`, so `topN = 0` falls through to the single-move
branch: on a position with one legal move, `play(topN=0)` returns a single
`Move` (and shifts the recent-move memory), not a list of at most zero
moves. -/
theorem play_topn_zero_returns_single_move :
    Rsimple.legalMoves 0 ≠ [] ∧
    GreedyAI.play Rsimple memE 0 0
      = Except.ok (PlayResult.single mv0, ⟨some PieceType.pawn, none⟩) := by
  constructor
  · decide
  · rfl

/-- Stability survives truncation: a pair that is a sublist of a
duplicate-free list stays a sublist of any `take`-prefix containing its
second component. -/
theorem pair_sublist_take {α : Type} {x y : α} :
    ∀ (s : List α) (n : Nat), List.Sublist [x, y] s → s.Nodup → y ∈ s.take n → List.Sublist [x, y] (s.take n) := by
  intro s
  induction s with
  | nil =>
      intro n h _ hy
      simp at hy
  | cons a s2 ih =>
      intro n hsub hnd hy
      cases n with
      | zero => simp at hy
      | succ k =>
          rw [List.take_succ_cons] at hy ⊢
          cases hsub with
          | cons _ h2 =>
              have hya : y ≠ a := by
                intro he
                have hm : y ∈ s2 := h2.subset (by simp)
                rw [he] at hm
                exact (List.nodup_cons.mp hnd).1 hm
              have hy2 : y ∈ s2.take k := by
                rcases List.mem_cons.mp hy with h | h
                · exact absurd h hya
                · exact h
              exact List.Sublist.cons a (ih k h2 (List.nodup_cons.mp hnd).2 hy2)
          | cons₂ _ h2 =>
              have hya : y ≠ x := by
                intro he
                have hm : y ∈ s2 := h2.subset (by simp)
                rw [he] at hm
                exact (List.nodup_cons.mp hnd).1 hm
              have hy2 : y ∈ s2.take k := by
                rcases List.mem_cons.mp hy with h | h
                · exact absurd h hya
                · exact h
              exact List.Sublist.cons₂ x (List.singleton_sublist.mpr hy2)

/-- C2 (amended): `GreedyAI.play` treats `top_n = 0` like `top_n < 0`.
With `top_n <= 0` it returns the single first-maximal move under
`score_move`; with `top_n > 0` it returns exactly
`min(top_n, #legal-moves)` moves, sorted by `score_move` descending and
stable — ties (and better-or-equal earlier moves generally) keep their
original enumeration order — and every returned move scores at least every
omitted one.  `hnd` (distinct legal moves) is a rules-engine invariant
used for the stability clause; `hpc` (a piece on every legal move's
origin) is a rules-engine invariant used by the memory update of the
single-move branch. -/
theorem play_topn_ranking_amended {B : Type} (R : Rules B) (mem : GreedyMem) (b : B)
    (hnd : (R.legalMoves b).Nodup)
    (hpc : ∀ mv ∈ R.legalMoves b, (R.pieceAt b mv.fromSquare).isSome) :
    (R.legalMoves b = [] →
      ∀ topN : Int, GreedyAI.play R mem b topN = Except.ok (PlayResult.noMove, mem)) ∧
    (R.legalMoves b ≠ [] → ∀ topN : Int, 0 < topN →
      ∃ l, GreedyAI.play R mem b topN = Except.ok (PlayResult.ranked l, mem) ∧
        l.length = min topN.toNat (R.legalMoves b).length ∧
        l.Pairwise (fun a c => get_action_score R mem b c ≤ get_action_score R mem b a) ∧
        (∀ x ∈ R.legalMoves b, x ∉ l → ∀ y ∈ l,
          get_action_score R mem b x ≤ get_action_score R mem b y) ∧
        (∀ x y, List.Sublist [x, y] (R.legalMoves b) →
          get_action_score R mem b y ≤ get_action_score R mem b x →
          y ∈ l → List.Sublist [x, y] l)) ∧
    (R.legalMoves b ≠ [] → ∀ topN : Int, topN ≤ 0 →
      ∃ m p, R.pieceAt b m.fromSquare = some p ∧ m ∈ R.legalMoves b ∧
        (∀ x ∈ R.legalMoves b, get_action_score R mem b x ≤ get_action_score R mem b m) ∧
        GreedyAI.play R mem b topN
          = Except.ok (PlayResult.single m, ⟨some p.pieceType, mem.lastMovePiece⟩)) := by
  haveI htr : IsTrans Move (fun a c => get_action_score R mem b c ≤ get_action_score R mem b a) :=
    ⟨fun _ _ _ hab hbc => le_trans hbc hab⟩
  haveI hto : IsTotal Move (fun a c => get_action_score R mem b c ≤ get_action_score R mem b a) :=
    ⟨fun a c => le_total (get_action_score R mem b c) (get_action_score R mem b a)⟩
  refine ⟨?_, ?_, ?_⟩
  · intro hleg topN
    unfold GreedyAI.play
    simp [hleg]
  · intro hne topN htop
    have hsorted : (pySortedDesc (get_action_score R mem b) (R.legalMoves b)).Pairwise
        (fun a c => get_action_score R mem b c ≤ get_action_score R mem b a) :=
      List.sorted_insertionSort _ _
    have hperm : List.Perm (pySortedDesc (get_action_score R mem b) (R.legalMoves b))
        (R.legalMoves b) :=
      List.perm_insertionSort _ _
    have hsnd : (pySortedDesc (get_action_score R mem b) (R.legalMoves b)).Nodup :=
      hperm.nodup_iff.mpr hnd
    refine ⟨(pySortedDesc (get_action_score R mem b) (R.legalMoves b)).take
      (min topN.toNat (R.legalMoves b).length), ?_, ?_, ?_, ?_, ?_⟩
    · unfold GreedyAI.play
      simp [hne, htop]
    · rw [List.length_take, pySortedDesc, List.length_insertionSort, min_assoc, min_self]
    · exact hsorted.sublist (List.take_sublist _ _)
    · intro x hx hxl y hyl
      have hxs : x ∈ pySortedDesc (get_action_score R mem b) (R.legalMoves b) :=
        hperm.mem_iff.mpr hx
      rw [← List.take_append_drop (min topN.toNat (R.legalMoves b).length)
        (pySortedDesc (get_action_score R mem b) (R.legalMoves b))] at hsorted hxs
      have hxdrop : x ∈ (pySortedDesc (get_action_score R mem b) (R.legalMoves b)).drop
          (min topN.toNat (R.legalMoves b).length) := by
        rcases List.mem_append.mp hxs with h | h
        · exact absurd h hxl
        · exact h
      exact (List.pairwise_append.mp hsorted).2.2 y hyl x hxdrop
    · intro x y hxy hscore hyl
      have hpair : List.Sublist [x, y]
          (pySortedDesc (get_action_score R mem b) (R.legalMoves b)) :=
        List.pair_sublist_insertionSort hscore hxy
      exact pair_sublist_take _ _ hpair hsnd hyl
  · intro hne topN htop
    cases hleg : R.legalMoves b with
    | nil => exact absurd hleg hne
    | cons x xs =>
        obtain ⟨hmem, hxle, hall⟩ := pyMax_foldl_spec (get_action_score R mem b) xs x
        have hbmem : xs.foldl
            (fun best y => if get_action_score R mem b best < get_action_score R mem b y
              then y else best) x ∈ x :: xs := by
          rcases hmem with h | h
          · rw [h]; exact List.mem_cons_self x xs
          · exact List.mem_cons_of_mem x h
        have hbmem2 : xs.foldl
            (fun best y => if get_action_score R mem b best < get_action_score R mem b y
              then y else best) x ∈ R.legalMoves b := by rw [hleg]; exact hbmem
        obtain ⟨p, hp⟩ := Option.isSome_iff_exists.mp (hpc _ hbmem2)
        refine ⟨_, p, hp, hbmem, ?_, ?_⟩
        · intro z hz
          rcases List.mem_cons.mp hz with rfl | hz2
          · exact hxle
          · exact hall z hz2
        · have hnotpos : ¬ (0 < topN) := not_lt.mpr htop
          unfold GreedyAI.play
          simp [hleg, hnotpos, pyMax, hp]

/-- Witness for `play_topn_ranking_amended` on `Rsimple` at `topN = 2`. -/
theorem play_topn_ranking_amended_witness :
    ∃ l, GreedyAI.play Rsimple memE 0 2 = Except.ok (PlayResult.ranked l, memE) ∧
      l.length = min (Int.toNat 2) (Rsimple.legalMoves 0).length ∧
      l.Pairwise (fun a c => get_action_score Rsimple memE 0 c ≤ get_action_score Rsimple memE 0 a) ∧
      (∀ x ∈ Rsimple.legalMoves 0, x ∉ l → ∀ y ∈ l,
        get_action_score Rsimple memE 0 x ≤ get_action_score Rsimple memE 0 y) ∧
      (∀ x y, List.Sublist [x, y] (Rsimple.legalMoves 0) →
        get_action_score Rsimple memE 0 y ≤ get_action_score Rsimple memE 0 x →
        y ∈ l → List.Sublist [x, y] l) :=
  (play_topn_ranking_amended Rsimple memE 0 (by decide) (by decide)).2.1 (by decide) 2
    (by norm_num)

/-! ### C5 — `reset` versus the state after `open` -/

/-- Applying moves inside the sandbox never touches `initial_game`. -/
theorem applyMoves_initial {B : Type} (R : Rules B) :
    ∀ (moves : List Move) (sim sim2 : SimulationS B),
      SimulationS.applyMoves R sim moves = Except.ok sim2 → sim2.initial = sim.initial := by
  intro moves
  induction moves with
  | nil =>
      intro sim sim2 h
      simp only [SimulationS.applyMoves, Except.ok.injEq] at h
      rw [← h]
  | cons mv rest ih =>
      intro sim sim2 h
      simp only [SimulationS.applyMoves] at h
      cases hg : GameS.move R sim.game mv with
      | error e => rw [hg] at h; cases h
      | ok g2 =>
          rw [hg] at h
          dsimp only at h
          exact ih { sim with game := g2 } sim2 h

/-- C5 (counterexample): the claim requires the post-`reset` state to be
identical to the post-`open` state "including the cached terminal flags".
For a source game built by `Game.play` (attribute defaults: `draw = None`),
the opened clone recomputes `draw = False` from the FEN, while `reset`
copies the source object's attribute `None`: the FENs agree (first
conjunct) but the `draw` flags differ (second conjunct), refuting the
claim already for the empty move sequence. -/
theorem reset_flags_differ_from_open :
    Rsimple.fen (SimulationS.reset Rsimple
        (SimulationS.init Rsimple (Game.playFresh Rsimple))).game.board
      = Rsimple.fen (SimulationS.init Rsimple (Game.playFresh Rsimple)).game.board ∧
    (SimulationS.reset Rsimple (SimulationS.init Rsimple (Game.playFresh Rsimple))).game.draw
      ≠ (SimulationS.init Rsimple (Game.playFresh Rsimple)).game.draw := by
  constructor
  · rfl
  · decide

/-- C5 (amended): after any sequence of legally applied moves, `reset()`
restores the board to the FEN of the post-`open()` state, and sets the
cached flags (`checkmate`, `draw`, `king_in_check`, `last_player`) to the
SOURCE `Game` object's current attribute values — which coincide with the
post-`open()` flags only when the source's attributes agree with the
values `_load_fen` recomputes (after `open()`, `draw` is a computed
boolean and `checkmate` is always `None` because `_load_fen` writes the
misnamed attribute `is_checkmate`). -/
theorem reset_restores_fen_and_source_flags {B : Type} (R : Rules B) (src : GameS B)
    (moves : List Move) (sim2 : SimulationS B)
    (h : SimulationS.applyMoves R (SimulationS.init R src) moves = Except.ok sim2) :
    R.fen (SimulationS.reset R sim2).game.board
        = R.fen (SimulationS.init R src).game.board ∧
    (SimulationS.reset R sim2).game.checkmate = src.checkmate ∧
    (SimulationS.reset R sim2).game.draw = src.draw ∧
    (SimulationS.reset R sim2).game.kingInCheckW = src.kingInCheckW ∧
    (SimulationS.reset R sim2).game.kingInCheckB = src.kingInCheckB ∧
    (SimulationS.reset R sim2).game.lastPlayer = src.lastPlayer := by
  have hinit : sim2.initial = src := applyMoves_initial R moves _ _ h
  refine ⟨?_, ?_, ?_, ?_, ?_, ?_⟩ <;>
    simp [SimulationS.reset, GameS.load_fen, SimulationS.init, Game.newLoaded, Game.initG,
      hinit]

/-- Witness for `reset_restores_fen_and_source_flags` with the empty move
sequence on `Rsimple`. -/
theorem reset_restores_fen_and_source_flags_witness :
    Rsimple.fen (SimulationS.reset Rsimple
        (SimulationS.init Rsimple (Game.playFresh Rsimple))).game.board
      = Rsimple.fen (SimulationS.init Rsimple (Game.playFresh Rsimple)).game.board ∧
    (SimulationS.reset Rsimple
        (SimulationS.init Rsimple (Game.playFresh Rsimple))).game.checkmate
      = (Game.playFresh Rsimple).checkmate ∧
    (SimulationS.reset Rsimple
        (SimulationS.init Rsimple (Game.playFresh Rsimple))).game.draw
      = (Game.playFresh Rsimple).draw ∧
    (SimulationS.reset Rsimple
        (SimulationS.init Rsimple (Game.playFresh Rsimple))).game.kingInCheckW
      = (Game.playFresh Rsimple).kingInCheckW ∧
    (SimulationS.reset Rsimple
        (SimulationS.init Rsimple (Game.playFresh Rsimple))).game.kingInCheckB
      = (Game.playFresh Rsimple).kingInCheckB ∧
    (SimulationS.reset Rsimple
        (SimulationS.init Rsimple (Game.playFresh Rsimple))).game.lastPlayer
      = (Game.playFresh Rsimple).lastPlayer :=
  reset_restores_fen_and_source_flags Rsimple (Game.playFresh Rsimple) []
    (SimulationS.init Rsimple (Game.playFresh Rsimple)) rfl
